import Mathlib

/-!
Verification of the ephemeris fetcher / parser core of this repository
(`PlanetaryObjectsFetcher.py`, `PlaneraryObjectSelection.py`).

Shallow embedding conventions:
* Python numeric (float) values are modelled as exact rationals `ℚ`
  (and as `ℝ` where π is involved); the claims under study relate
  outputs of the conversion functions to each other on the same parsed
  inputs, so exact arithmetic is the faithful idealisation.
* Python functions that can return `None` or raise a caught exception
  are modelled as `Option`-valued functions (`none` = `None` result).
* Python strings are Lean `String`s; character-level helpers work on
  `List Char` (the `.data` of a `String`) to keep proofs tractable.
-/

namespace PlanetaryObjectsFetcher

/-- Embeds `hms_to_degrees` (PlanetaryObjectsFetcher.py, lines 214–227):
`return (hours + minutes/60.0 + seconds/3600.0) * 15.0`. -/
def hms_to_degrees (hours minutes seconds : ℚ) : ℚ :=
  (hours + minutes / 60 + seconds / 3600) * 15

/-- Embeds `dms_to_degrees` (PlanetaryObjectsFetcher.py, lines 229–243):
`sign = 1 if degrees >= 0 else -1; return sign * (abs(degrees) + arcminutes/60.0 + arcseconds/3600.0)`. -/
def dms_to_degrees (degrees arcminutes arcseconds : ℚ) : ℚ :=
  (if 0 ≤ degrees then 1 else -1) * (|degrees| + arcminutes / 60 + arcseconds / 3600)

/-- Embeds `radian_to_degree` (PlanetaryObjectsFetcher.py, lines 199–212):
`degree = radian * (180.0 / np.pi); if degree < 0: degree = 360 + degree; return degree`. -/
noncomputable def radian_to_degree (radian : ℝ) : ℝ :=
  let degree := radian * (180 / Real.pi)
  if degree < 0 then 360 + degree else degree

/-- Python's whitespace predicate for `str.strip` and `str.split`:
space, tab, newline, carriage return, vertical tab, form feed. -/
def pyIsSpace (c : Char) : Bool :=
  c = ' ' || c = '\t' || c = '\n' || c = '\r' || c = '\x0b' || c = '\x0c'

/-- Embeds Python `str.strip()`: remove leading and trailing whitespace
(on the character list of the string). -/
def pyStrip (l : List Char) : List Char :=
  ((l.dropWhile pyIsSpace).reverse.dropWhile pyIsSpace).reverse

/-- Embeds Python `str.split(sep)` for a one-character separator: split the
character list at every occurrence of `sep`, keeping empty pieces (so `n`
separators yield `n+1` pieces). -/
def splitOnChar (sep : Char) : List Char → List (List Char)
  | [] => [[]]
  | c :: rest =>
    if c = sep then [] :: splitOnChar sep rest
    else
      match splitOnChar sep rest with
      | [] => [[c]]
      | h :: t => (c :: h) :: t

/-- Embeds Python `str.split("\n")` as used by `parse_ephemeris_data`. -/
def splitOnNl (l : List Char) : List (List Char) :=
  splitOnChar '\n' l

/-- Boolean test for `pat` occurring as a contiguous substring of `l`; embeds the
Python `pat in line` membership test on strings, at the character-list level. -/
def listHasInfix (pat : List Char) (l : List Char) : Bool :=
  match l with
  | [] => pat.isEmpty
  | _ :: rest => List.isPrefixOf pat l || listHasInfix pat rest

/-- Embeds the scanning loop of `parse_ephemeris_data` (PlanetaryObjectsFetcher.py,
lines 135–149): iterate over the split lines carrying the `data_found` flag; a
line containing `$SOE` sets the flag and continues; a line containing `$EOE`
breaks with the (still empty) accumulator; while the flag is set, the first line
whose strip is non-empty is appended (stripped) and the loop breaks. -/
def parseLines : List (List Char) → Bool → List (List Char)
  | [], _ => []
  | line :: rest, data_found =>
    if listHasInfix "$SOE".data line then parseLines rest true
    else if listHasInfix "$EOE".data line then []
    else if data_found && !(pyStrip line).isEmpty then [pyStrip line]
    else parseLines rest data_found

/-- Embeds `parse_ephemeris_data` (PlanetaryObjectsFetcher.py, lines 116–149):
split the raw text on newlines and run the scanning loop with the flag unset. -/
def parse_ephemeris_data (ephemeris_text : String) : List String :=
  (parseLines (splitOnNl ephemeris_text.data) false).map String.mk

/-- States of the extraction state machine described by the spec: `Seeking`
before a start-marker line has been seen, `Collecting` afterwards (the spec's
`Done` state is represented by returning a result). -/
inductive ScanState where
  | Seeking : ScanState
  | Collecting : ScanState

/-- Spec-side extraction `extractDataLine`, written from the spec's algorithm:
scan lines in order; on a line containing the start marker begin collecting; on
a line containing the end marker stop entirely with no line found; while
collecting, the first line with non-whitespace content is returned trimmed and
scanning stops; running out of lines yields no line found. -/
def extractDataLine : List (List Char) → ScanState → Option (List Char)
  | [], _ => none
  | line :: rest, ScanState.Seeking =>
    if listHasInfix "$SOE".data line then extractDataLine rest ScanState.Collecting
    else if listHasInfix "$EOE".data line then none
    else extractDataLine rest ScanState.Seeking
  | line :: rest, ScanState.Collecting =>
    if listHasInfix "$SOE".data line then extractDataLine rest ScanState.Collecting
    else if listHasInfix "$EOE".data line then none
    else if ¬ (pyStrip line).isEmpty then some (pyStrip line)
    else extractDataLine rest ScanState.Collecting

/-- Helper for `pySplit`: walk the characters accumulating the current token
(reversed); whitespace flushes a non-empty token. -/
def splitWsAux : List Char → List Char → List (List Char)
  | [], tok => if tok.isEmpty then [] else [tok.reverse]
  | c :: rest, tok =>
    if pyIsSpace c then
      if tok.isEmpty then splitWsAux rest []
      else tok.reverse :: splitWsAux rest []
    else splitWsAux rest (c :: tok)

/-- Embeds Python `str.split()` with no arguments: split on runs of whitespace
and discard empty pieces. -/
def pySplit (l : List Char) : List (List Char) :=
  splitWsAux l []

/-- Decimal digit test, `'0' ≤ c ≤ '9'`. -/
def isDigitChar (c : Char) : Bool :=
  '0' ≤ c && c ≤ '9'

/-- Numeric value of a decimal digit character. -/
def digitVal (c : Char) : ℕ :=
  c.toNat - 48

/-- All characters of the list are decimal digits. -/
def allDigits (l : List Char) : Bool :=
  l.all isDigitChar

/-- Value of a digit string read left to right in base 10 (empty list reads 0). -/
def digitsVal (l : List Char) : ℕ :=
  l.foldl (fun a c => 10 * a + digitVal c) 0

/-- Magnitude part of the decimal model of Python `float(str)`: an optional
integer digit run, an optional `.` followed by an optional fractional digit run,
with at least one digit overall; anything else is rejected. -/
def pyFloatMag (l : List Char) : Option ℚ :=
  let intCs := l.takeWhile (fun c => c ≠ '.')
  let rest := l.dropWhile (fun c => c ≠ '.')
  if rest.isEmpty then
    if !intCs.isEmpty && allDigits intCs then some (digitsVal intCs) else none
  else
    let fracCs := rest.tail
    if (!intCs.isEmpty || !fracCs.isEmpty) && allDigits intCs && allDigits fracCs then
      some ((digitsVal intCs : ℚ) + (digitsVal fracCs : ℚ) / 10 ^ fracCs.length)
    else none

/-- Sign handling of the decimal model of Python `float(str)`: a leading `+` or
`-` in front of the magnitude. Python's `float` also accepts exponent,
`inf`/`nan` and underscore forms; the ephemeris fields this system parses are
plain signed decimals, which is the fragment modelled here. -/
def pyFloatChars (l : List Char) : Option ℚ :=
  if l.head? = some '+' then pyFloatMag l.tail
  else if l.head? = some '-' then (pyFloatMag l.tail).map (fun q => -q)
  else pyFloatMag l

/-- Decimal model of Python `float(str)`: strip surrounding whitespace, then
parse an optional sign and a decimal magnitude. -/
def pyFloat (l : List Char) : Option ℚ :=
  pyFloatChars (pyStrip l)

/-- Result record of `parse_ra_dec`: right ascension and declination in decimal
degrees. The Python dictionary also carries two display strings (`ra_hms`,
`dec_dms`) that merely re-format the six already-parsed numbers for printing;
they are presentation only and not modelled. -/
structure RaDec where
  ra_deg : ℚ
  dec_deg : ℚ
deriving DecidableEq, Repr

/-- Field access of `float(parts[i])` in `parse_ra_dec`: `none` models both the
`IndexError` (index out of range) and the `ValueError` (non-numeric field), the
two exceptions the Python code catches. -/
def pyFloatAt (parts : List (List Char)) (i : ℕ) : Option ℚ :=
  (parts.get? i).bind pyFloat

/-- Embeds `parse_ra_dec` (PlanetaryObjectsFetcher.py, lines 245–288): `None`
or an empty list yields `None`; otherwise the first line is split on
whitespace, fields 3,4,5 are parsed as RA hours/minutes/seconds and fields
6,7,8 as DEC degrees/arcminutes/arcseconds; any `IndexError`/`ValueError` is
caught and yields `None`. -/
def parse_ra_dec (coordinate_data : Option (List String)) : Option RaDec :=
  match coordinate_data with
  | none => none
  | some [] => none
  | some (first :: _) =>
    let parts := pySplit first.data
    match pyFloatAt parts 3, pyFloatAt parts 4, pyFloatAt parts 5,
          pyFloatAt parts 6, pyFloatAt parts 7, pyFloatAt parts 8 with
    | some raH, some raM, some raS, some decD, some decM, some decS =>
      some ⟨hms_to_degrees raH raM raS, dms_to_degrees decD decM decS⟩
    | _, _, _, _, _, _ => none

/-- Model of the HTTP response consumed by `fetch_ephemeris_data`: the status
code and the textual payload under the `"result"` key of the JSON body. The
request construction (URL, query parameters, dates) is I/O glue over the
`requests` library; the response is taken as the input here. -/
structure HttpResponse where
  status_code : ℕ
  result_text : String

/-- Embeds the response handling of `fetch_ephemeris_data`
(PlanetaryObjectsFetcher.py, lines 104–113): on status 200 the `"result"` text
is parsed with `parse_ephemeris_data`; on any other status an error is printed
and the empty list is returned. -/
def fetch_ephemeris_data (response : HttpResponse) : List String :=
  if response.status_code = 200 then parse_ephemeris_data response.result_text
  else []

/-- Character for a decimal digit value: `0 ↦ '0'`, …, `9 ↦ '9'`. -/
def natDigitChar (d : ℕ) : Char :=
  Char.ofNat (48 + d)

/-- Decimal digit characters of a natural number, most significant first
(empty for 0). -/
def natChars (m : ℕ) : List Char :=
  (Nat.digits 10 m).reverse.map natDigitChar

/-- Decimal digit characters of a natural number, rendering 0 as `"0"`. -/
def natCharsZ (m : ℕ) : List Char :=
  if m = 0 then ['0'] else natChars m

/-- The four fractional digits of `r < 10000`, zero padded on the left. -/
def pad4 (r : ℕ) : List Char :=
  [natDigitChar (r / 1000 % 10), natDigitChar (r / 100 % 10),
   natDigitChar (r / 10 % 10), natDigitChar (r % 10)]

/-- The value printed by Python `f"{q:.4f}"`: `q` rounded to the nearest
multiple of `1/10000` (Python resolves exact ties on the binary float half to
even; the tie convention is immaterial to the round-trip property). -/
def round4 (q : ℚ) : ℚ :=
  ((round (q * 10000) : ℤ) : ℚ) / 10000

/-- Character rendering of Python `f"{q:.4f}"`: optional minus sign, integer
digits, a dot, and exactly four fractional digits of the rounded value. -/
def fmt4 (q : ℚ) : List Char :=
  (if round (q * 10000) < 0 then ['-'] else []) ++
    natCharsZ ((round (q * 10000)).natAbs / 10000) ++
    '.' :: pad4 ((round (q * 10000)).natAbs % 10000)

/-- Embeds the serial message construction of the command loop
(PlanetaryObjectsFetcher.py, line 333):
`message = f"{data['ra_deg']:.4f},{data['dec_deg']:.4f}\n"`. -/
def serial_message (ra_deg dec_deg : ℚ) : String :=
  String.mk (fmt4 ra_deg ++ ',' :: (fmt4 dec_deg ++ ['\n']))

end PlanetaryObjectsFetcher

namespace PlanetaryObjectSelection

/-- Embeds the `OBJECTS` dictionary of `PlaneraryObjectSelection.py` (lines
13–58) as an association list in insertion order: common name → JPL Horizons
identifier. -/
def OBJECTS : List (String × String) :=
  [("Sun", "10"),
   ("Mercury", "199"), ("Venus", "299"), ("Earth", "399"), ("Mars", "499"),
   ("Jupiter", "599"), ("Saturn", "699"), ("Uranus", "799"), ("Neptune", "899"),
   ("Pluto", "999"), ("Ceres", "2000001"),
   ("Moon", "301"),
   ("Phobos", "401"), ("Deimos", "402"),
   ("Io", "501"), ("Europa", "502"), ("Ganymede", "503"), ("Callisto", "504"),
   ("Titan", "606"), ("Rhea", "605"), ("Iapetus", "608"), ("Enceladus", "602"),
   ("Titania", "703"), ("Oberon", "704"),
   ("Triton", "801")]

/-- Embeds the dictionary lookup `OBJECTS[name]` (exact, case-sensitive):
`none` models the `KeyError` / NotFound condition for names absent from the
table. -/
def resolve (name : String) : Option String :=
  (OBJECTS.find? (fun p => p.1 == name)).map Prod.snd

end PlanetaryObjectSelection

open PlanetaryObjectsFetcher

/-- The code's scanning loop agrees with the spec's state machine, with the
`data_found` flag tracking the `Seeking`/`Collecting` state. -/
theorem parseLines_eq_extractDataLine (lines : List (List Char)) (b : Bool) :
    parseLines lines b =
      (extractDataLine lines (if b then ScanState.Collecting else ScanState.Seeking)).toList := by
  induction lines generalizing b with
  | nil => cases b <;> rfl
  | cons line rest ih =>
    cases b with
    | false =>
      simp only [parseLines, extractDataLine]
      by_cases h1 : listHasInfix "$SOE".data line
      · simp only [h1, if_true]
        simpa using ih true
      · simp only [h1, if_false, Bool.false_and]
        by_cases h2 : listHasInfix "$EOE".data line
        · simp [h2]
        · simp only [h2, if_false]
          simpa using ih false
    | true =>
      simp only [parseLines, extractDataLine]
      by_cases h1 : listHasInfix "$SOE".data line
      · simp only [h1, if_true]
        simpa using ih true
      · simp only [h1, if_false]
        by_cases h2 : listHasInfix "$EOE".data line
        · simp [h2]
        · simp only [h2, if_false]
          by_cases h3 : (pyStrip line).isEmpty
          · simp [h3]
            simpa using ih true
          · simp [h3]

/-- Lines containing no `$SOE` never set the `data_found` flag, so scanning with
the flag unset returns the empty accumulator. -/
theorem parseLines_no_start_marker (lines : List (List Char))
    (h : ∀ l ∈ lines, listHasInfix "$SOE".data l = false) :
    parseLines lines false = [] := by
  induction lines with
  | nil => rfl
  | cons line rest ih =>
    have h1 : listHasInfix "$SOE".data line = false := h line (List.mem_cons_self line rest)
    simp only [parseLines, h1, Bool.false_eq_true, if_false, Bool.false_and]
    by_cases h2 : listHasInfix "$EOE".data line
    · simp [h2]
    · simp only [h2, if_false, Bool.false_eq_true]
      exact ih fun l hl => h l (List.mem_cons_of_mem line hl)

/-- C1: `parse_ephemeris_data` returns exactly what the spec's extraction state
machine (`extractDataLine`) prescribes: the first line between the `$SOE` and
`$EOE` marker lines that is non-blank after stripping, stripped, with all later
data lines discarded; the spec's two examples hold, and whenever no line
contains the start marker the result is the empty list (no line found), not an
error. -/
theorem parse_ephemeris_data_spec :
    (∀ t : String, parse_ephemeris_data t =
      ((extractDataLine (splitOnNl t.data) ScanState.Seeking).map String.mk).toList) ∧
    parse_ephemeris_data "$SOE\n\n2025-Nov-29 00:00 *m  131.587713  38.069515\n$EOE" =
      ["2025-Nov-29 00:00 *m  131.587713  38.069515"] ∧
    parse_ephemeris_data "header\n$EOE\ndata" = [] ∧
    (∀ t : String, (∀ l ∈ splitOnNl t.data, listHasInfix "$SOE".data l = false) →
      parse_ephemeris_data t = []) := by
  refine ⟨?_, by decide, by decide, ?_⟩
  · intro t
    unfold parse_ephemeris_data
    rw [show (false : Bool) = false from rfl, parseLines_eq_extractDataLine]
    simp [Option.toList]
    cases extractDataLine (splitOnNl t.data) ScanState.Seeking <;> simp
  · intro t ht
    unfold parse_ephemeris_data
    rw [parseLines_no_start_marker _ ht]
    rfl

/-- C1, witness: on the concrete marker-free input `"alpha\nbeta"` the
no-start-marker hypothesis holds and the result is the empty list. -/
theorem parse_ephemeris_data_spec_witness :
    parse_ephemeris_data "alpha\nbeta" = [] :=
  parse_ephemeris_data_spec.2.2.2 "alpha\nbeta" (by decide)

/-- C2: on a data line whose whitespace fields at indices 3,4,5 parse as the
numbers `raH, raM, raS` and at indices 6,7,8 as `decD, decM, decS`,
`parse_ra_dec` returns exactly `hms_to_degrees raH raM raS` as the right
ascension and `dms_to_degrees decD decM decS` as the declination. -/
theorem parse_ra_dec_fields (line : String) (raH raM raS decD decM decS : ℚ)
    (h3 : pyFloatAt (pySplit line.data) 3 = some raH)
    (h4 : pyFloatAt (pySplit line.data) 4 = some raM)
    (h5 : pyFloatAt (pySplit line.data) 5 = some raS)
    (h6 : pyFloatAt (pySplit line.data) 6 = some decD)
    (h7 : pyFloatAt (pySplit line.data) 7 = some decM)
    (h8 : pyFloatAt (pySplit line.data) 8 = some decS) :
    parse_ra_dec (some [line]) =
      some ⟨hms_to_degrees raH raM raS, dms_to_degrees decD decM decS⟩ := by
  simp only [parse_ra_dec]
  rw [h3, h4, h5, h6, h7, h8]

/-- C2, witness: on the spec's 9-token example line the six fields parse as
`3, 45, 12.30, -5, 30, 15.0` and the result is exactly
`⟨hms_to_degrees 3 45 12.3, dms_to_degrees (-5) 30 15⟩`. -/
theorem parse_ra_dec_fields_witness :
    parse_ra_dec (some ["2025-Nov-29 00:00 *m 03 45 12.30 -05 30 15.0"]) =
      some ⟨hms_to_degrees 3 45 12.3, dms_to_degrees (-5) 30 15⟩ :=
  parse_ra_dec_fields "2025-Nov-29 00:00 *m 03 45 12.30 -05 30 15.0" 3 45 12.3 (-5) 30 15
    (by show some (((3:ℕ):ℚ)) = some (3:ℚ); norm_num)
    (by show some (((45:ℕ):ℚ)) = some (45:ℚ); norm_num)
    (by show some (((12:ℕ):ℚ) + ((30:ℕ):ℚ) / 10 ^ (2:ℕ)) = some (12.3:ℚ); norm_num)
    (by show some (-((5:ℕ):ℚ)) = some (-5:ℚ); norm_num)
    (by show some (((30:ℕ):ℚ)) = some (30:ℚ); norm_num)
    (by show some (((15:ℕ):ℚ) + ((0:ℕ):ℚ) / 10 ^ (1:ℕ)) = some (15:ℚ); norm_num)

/-- Failure characterization of `parse_ra_dec` on a single line: the result is
`none` exactly when one of the six accessed fields (indices 3 through 8) fails
to produce a number. -/
theorem parse_ra_dec_none_iff (line : String) :
    parse_ra_dec (some [line]) = none ↔
      (pyFloatAt (pySplit line.data) 3 = none ∨ pyFloatAt (pySplit line.data) 4 = none ∨
       pyFloatAt (pySplit line.data) 5 = none ∨ pyFloatAt (pySplit line.data) 6 = none ∨
       pyFloatAt (pySplit line.data) 7 = none ∨ pyFloatAt (pySplit line.data) 8 = none) := by
  rcases e3 : pyFloatAt (pySplit line.data) 3 with _ | v3 <;>
  rcases e4 : pyFloatAt (pySplit line.data) 4 with _ | v4 <;>
  rcases e5 : pyFloatAt (pySplit line.data) 5 with _ | v5 <;>
  rcases e6 : pyFloatAt (pySplit line.data) 6 with _ | v6 <;>
  rcases e7 : pyFloatAt (pySplit line.data) 7 with _ | v7 <;>
  rcases e8 : pyFloatAt (pySplit line.data) 8 with _ | v8 <;>
  simp [parse_ra_dec, e3, e4, e5, e6, e7, e8]

/-- C6: `parse_ra_dec` fails — returning `None` non-fatally, which callers
treat as no usable data for this interval — exactly when the line splits into
fewer than 9 whitespace fields or one of the fields at indices 3 through 8 is
not numeric; in particular it fails on the 5-token line
`"2025-Nov-29 00:00 *m 03 45"`. -/
theorem parse_ra_dec_error_iff :
    (∀ line : String,
      parse_ra_dec (some [line]) = none ↔
        (pySplit line.data).length < 9 ∨
          ∃ i, 3 ≤ i ∧ i ≤ 8 ∧ pyFloatAt (pySplit line.data) i = none) ∧
    parse_ra_dec (some ["2025-Nov-29 00:00 *m 03 45"]) = none := by
  refine ⟨fun line => ?_, by decide⟩
  rw [parse_ra_dec_none_iff]
  constructor
  · rintro (h | h | h | h | h | h)
    · exact Or.inr ⟨3, by norm_num, by norm_num, h⟩
    · exact Or.inr ⟨4, by norm_num, by norm_num, h⟩
    · exact Or.inr ⟨5, by norm_num, by norm_num, h⟩
    · exact Or.inr ⟨6, by norm_num, by norm_num, h⟩
    · exact Or.inr ⟨7, by norm_num, by norm_num, h⟩
    · exact Or.inr ⟨8, by norm_num, by norm_num, h⟩
  · rintro (hlen | ⟨i, h3i, hi8, hnone⟩)
    · have h8 : pyFloatAt (pySplit line.data) 8 = none := by
        unfold pyFloatAt
        rw [List.get?_eq_none.2 (by omega)]
        rfl
      tauto
    · interval_cases i <;> tauto

/-- C10: when the extraction produced no data line — the input is `None` or the
empty list — `parse_ra_dec` returns `None` without any field parsing and
without raising. -/
theorem parse_ra_dec_no_data :
    parse_ra_dec none = none ∧ parse_ra_dec (some []) = none :=
  ⟨rfl, rfl⟩

/-- C7, counterexample: the catalog holds 25 entries, not the 28 the claim
states (there are 14 named moons in the table, not 17). -/
theorem objects_not_28 :
    PlanetaryObjectSelection.OBJECTS.length = 25 ∧
    PlanetaryObjectSelection.OBJECTS.length ≠ 28 := by
  decide

/-- C7, amended: `resolve` over the fixed catalog (case-sensitive exact-name
lookup, no side effects) returns `"301"` for `"Moon"` and `"999"` for
`"Pluto"`, fails with NotFound (`none`) for every name absent from the table —
such as `"Xyzzy"` — and the table contains exactly 25 entries — the Sun, the 8
planets, 2 dwarf planets, and 14 named moons, in that insertion order. -/
theorem objects_catalog :
    PlanetaryObjectSelection.resolve "Moon" = some "301" ∧
    PlanetaryObjectSelection.resolve "Pluto" = some "999" ∧
    PlanetaryObjectSelection.resolve "Xyzzy" = none ∧
    (∀ name : String, name ∉ PlanetaryObjectSelection.OBJECTS.map Prod.fst →
      PlanetaryObjectSelection.resolve name = none) ∧
    PlanetaryObjectSelection.OBJECTS.length = 25 ∧
    PlanetaryObjectSelection.OBJECTS.map Prod.fst =
      ["Sun",
       "Mercury", "Venus", "Earth", "Mars",
       "Jupiter", "Saturn", "Uranus", "Neptune",
       "Pluto", "Ceres",
       "Moon",
       "Phobos", "Deimos",
       "Io", "Europa", "Ganymede", "Callisto",
       "Titan", "Rhea", "Iapetus", "Enceladus",
       "Titania", "Oberon",
       "Triton"] := by
  refine ⟨by decide, by decide, by decide, ?_, by decide, by decide⟩
  intro name hname
  unfold PlanetaryObjectSelection.resolve
  have hfind : List.find? (fun p => p.1 == name) PlanetaryObjectSelection.OBJECTS = none := by
    rw [List.find?_eq_none]
    intro x hx hbeq
    exact hname (List.mem_map.2 ⟨x, hx, eq_of_beq hbeq⟩)
  rw [hfind]
  rfl

/-- C7, witness for the amended claim: the concrete name `"Xyzzy"` is absent
from the key list and `resolve` returns `none` (NotFound) on it. -/
theorem objects_catalog_witness :
    PlanetaryObjectSelection.resolve "Xyzzy" = none :=
  objects_catalog.2.2.2.1 "Xyzzy" (by decide)

/-- C8: whenever the HTTP response has a non-2xx status, `fetch_ephemeris_data`
returns the empty list rather than raising, so the failure is recoverable as
no data for this cycle. (The code tests `status_code == 200`, so every non-2xx
status — being different from 200 — takes the empty-result branch.) -/
theorem fetch_ephemeris_data_non_2xx (response : HttpResponse)
    (h : response.status_code < 200 ∨ 299 < response.status_code) :
    fetch_ephemeris_data response = [] := by
  unfold fetch_ephemeris_data
  rw [if_neg]
  omega

/-- C8, witness: a concrete 404 response yields the empty list. -/
theorem fetch_ephemeris_data_non_2xx_witness :
    fetch_ephemeris_data ⟨404, "irrelevant"⟩ = [] :=
  fetch_ephemeris_data_non_2xx ⟨404, "irrelevant"⟩ (by norm_num)

/-- C3: for all numeric inputs, `hms_to_degrees h m s = (h + m/60 + s/3600) * 15`;
in particular `hms_to_degrees 0 0 0 = 0`, `hms_to_degrees 24 0 0 = 360`, and
`hms_to_degrees 12 30 0 = 187.5`. -/
theorem hms_to_degrees_spec :
    (∀ h m s : ℚ, hms_to_degrees h m s = (h + m / 60 + s / 3600) * 15) ∧
    hms_to_degrees 0 0 0 = 0 ∧
    hms_to_degrees 24 0 0 = 360 ∧
    hms_to_degrees 12 30 0 = 187.5 := by
  refine ⟨fun h m s => rfl, ?_, ?_, ?_⟩ <;> norm_num [hms_to_degrees]

/-- C4: for all numeric inputs, `dms_to_degrees d m s = sign * (|d| + m/60 + s/3600)`
where the sign is `+1` when the degrees field is zero or positive and `-1` when it
is negative; in particular `dms_to_degrees (-5) 30 0 = -5.5` and
`dms_to_degrees 0 30 0 = 0.5`. -/
theorem dms_to_degrees_spec :
    (∀ d m s : ℚ,
      dms_to_degrees d m s = (if 0 ≤ d then 1 else -1) * (|d| + m / 60 + s / 3600)) ∧
    dms_to_degrees (-5) 30 0 = -5.5 ∧
    dms_to_degrees 0 30 0 = 0.5 := by
  refine ⟨fun d m s => rfl, ?_, ?_⟩ <;> norm_num [dms_to_degrees]

/-- C5, counterexample: the claim asserts that the result lies in `[0, 360)` for
every negative radian input, including inputs beyond `-2π`; but the code adds 360
only once, and at input `-3π` it returns `-180`, which is negative. -/
theorem radian_to_degree_beyond_two_pi :
    radian_to_degree (-(3 * Real.pi)) = -180 ∧
    radian_to_degree (-(3 * Real.pi)) < 0 := by
  have hπ : Real.pi ≠ 0 := Real.pi_ne_zero
  have hd : (-(3 * Real.pi)) * (180 / Real.pi) = -540 := by
    field_simp
    ring
  have h : radian_to_degree (-(3 * Real.pi)) = -180 := by
    unfold radian_to_degree
    rw [hd, if_pos (by norm_num)]
    norm_num
  exact ⟨h, by rw [h]; norm_num⟩

/-- C5, amended: `radian_to_degree` multiplies its input by `180/π` and, when
that product is negative, adds 360; for every negative radian input in the
single-revolution range `[-2π, 0)` the result lies in `[0, 360)`; in particular
`radian_to_degree (-π/2) = 270`. -/
theorem radian_to_degree_spec :
    (∀ r : ℝ, radian_to_degree r =
      if r * (180 / Real.pi) < 0 then 360 + r * (180 / Real.pi) else r * (180 / Real.pi)) ∧
    (∀ r : ℝ, -(2 * Real.pi) ≤ r → r < 0 →
      0 ≤ radian_to_degree r ∧ radian_to_degree r < 360) ∧
    radian_to_degree (-(Real.pi / 2)) = 270 := by
  have hπ : (0 : ℝ) < Real.pi := Real.pi_pos
  refine ⟨fun r => rfl, ?_, ?_⟩
  · intro r hlo hneg
    have hcpos : (0 : ℝ) < 180 / Real.pi := by positivity
    have hdneg : r * (180 / Real.pi) < 0 := mul_neg_of_neg_of_pos hneg hcpos
    have hdlo : -360 ≤ r * (180 / Real.pi) := by
      have := mul_le_mul_of_nonneg_right hlo (le_of_lt hcpos)
      have h2 : -(2 * Real.pi) * (180 / Real.pi) = -360 := by
        field_simp
        ring
      linarith [h2 ▸ this]
    unfold radian_to_degree
    rw [if_pos hdneg]
    constructor <;> linarith
  · have hd : (-(Real.pi / 2)) * (180 / Real.pi) = -90 := by
      field_simp
      ring
    unfold radian_to_degree
    rw [hd, if_pos (by norm_num)]
    norm_num

/-- C5, witness for the amended claim: at the concrete input `-π/2` the
hypotheses `-(2π) ≤ -π/2 < 0` hold and the result lies in `[0, 360)`. -/
theorem radian_to_degree_spec_witness :
    0 ≤ radian_to_degree (-(Real.pi / 2)) ∧ radian_to_degree (-(Real.pi / 2)) < 360 :=
  radian_to_degree_spec.2.1 (-(Real.pi / 2))
    (by linarith [Real.pi_pos]) (by linarith [Real.pi_pos])

/-- Basic facts about digit characters: a digit character is a decimal digit,
has the expected value, and is none of the punctuation characters the parsers
care about. -/
theorem natDigitChar_props (d : ℕ) (hd : d < 10) :
    isDigitChar (natDigitChar d) = true ∧ digitVal (natDigitChar d) = d ∧
    pyIsSpace (natDigitChar d) = false ∧
    natDigitChar d ≠ ',' ∧ natDigitChar d ≠ '.' ∧
    natDigitChar d ≠ '+' ∧ natDigitChar d ≠ '-' := by
  interval_cases d <;> exact ⟨by decide, by decide, by decide, by decide, by decide, by decide,
    by decide⟩

/-- Every character of `natCharsZ m` is a digit character. -/
theorem mem_natCharsZ (m : ℕ) (c : Char) (hc : c ∈ natCharsZ m) :
    ∃ d, d < 10 ∧ c = natDigitChar d := by
  unfold natCharsZ at hc
  by_cases hm : m = 0
  · rw [if_pos hm] at hc
    simp only [List.mem_singleton] at hc
    exact ⟨0, by norm_num, by rw [hc]; decide⟩
  · rw [if_neg hm] at hc
    unfold natChars at hc
    rw [List.mem_map] at hc
    obtain ⟨d, hd, rfl⟩ := hc
    exact ⟨d, Nat.digits_lt_base (by norm_num) (List.mem_reverse.1 hd), rfl⟩

/-- Every character of `pad4 r` is a digit character. -/
theorem mem_pad4 (r : ℕ) (c : Char) (hc : c ∈ pad4 r) :
    ∃ d, d < 10 ∧ c = natDigitChar d := by
  unfold pad4 at hc
  simp only [List.mem_cons, List.not_mem_nil, or_false] at hc
  rcases hc with rfl | rfl | rfl | rfl
  · exact ⟨r / 1000 % 10, Nat.mod_lt _ (by norm_num), rfl⟩
  · exact ⟨r / 100 % 10, Nat.mod_lt _ (by norm_num), rfl⟩
  · exact ⟨r / 10 % 10, Nat.mod_lt _ (by norm_num), rfl⟩
  · exact ⟨r % 10, Nat.mod_lt _ (by norm_num), rfl⟩

/-- Folding the digit-value accumulator over rendered digits recovers
`Nat.ofDigits`. -/
theorem foldr_digitVal_eq_ofDigits (L : List ℕ) (h : ∀ d ∈ L, d < 10) :
    List.foldr (fun d a => 10 * a + digitVal (natDigitChar d)) 0 L = Nat.ofDigits 10 L := by
  induction L with
  | nil => simp [Nat.ofDigits_nil]
  | cons d L ih =>
    rw [List.foldr_cons, Nat.ofDigits_cons,
      (natDigitChar_props d (h d (List.mem_cons_self d L))).2.1,
      ih (fun x hx => h x (List.mem_cons_of_mem d hx))]
    ring

/-- Reading back the decimal rendering of `m` gives `m`. -/
theorem digitsVal_natChars (m : ℕ) : digitsVal (natChars m) = m := by
  unfold digitsVal natChars
  rw [List.map_reverse, List.foldl_reverse, List.foldr_map,
    foldr_digitVal_eq_ofDigits _ (fun d hd => Nat.digits_lt_base (by norm_num) hd)]
  exact Nat.ofDigits_digits 10 m

/-- Reading back the zero-aware decimal rendering of `m` gives `m`. -/
theorem digitsVal_natCharsZ (m : ℕ) : digitsVal (natCharsZ m) = m := by
  unfold natCharsZ
  by_cases hm : m = 0
  · rw [if_pos hm, hm]
    decide
  · rw [if_neg hm]
    exact digitsVal_natChars m

/-- Reading back the four padded fractional digits of `r < 10000` gives `r`. -/
theorem digitsVal_pad4 (r : ℕ) (h : r < 10000) : digitsVal (pad4 r) = r := by
  have h1 : r / 1000 % 10 < 10 := Nat.mod_lt _ (by norm_num)
  have h2 : r / 100 % 10 < 10 := Nat.mod_lt _ (by norm_num)
  have h3 : r / 10 % 10 < 10 := Nat.mod_lt _ (by norm_num)
  have h4 : r % 10 < 10 := Nat.mod_lt _ (by norm_num)
  unfold digitsVal pad4
  rw [List.foldl_cons, List.foldl_cons, List.foldl_cons, List.foldl_cons, List.foldl_nil,
    (natDigitChar_props _ h1).2.1, (natDigitChar_props _ h2).2.1,
    (natDigitChar_props _ h3).2.1, (natDigitChar_props _ h4).2.1]
  omega

/-- The zero-aware rendering consists of digit characters only. -/
theorem allDigits_natCharsZ (m : ℕ) : allDigits (natCharsZ m) = true := by
  unfold allDigits
  rw [List.all_eq_true]
  intro c hc
  obtain ⟨d, hd, rfl⟩ := mem_natCharsZ m c hc
  exact (natDigitChar_props d hd).1

/-- The padded fractional rendering consists of digit characters only. -/
theorem allDigits_pad4 (r : ℕ) : allDigits (pad4 r) = true := by
  unfold allDigits
  rw [List.all_eq_true]
  intro c hc
  obtain ⟨d, hd, rfl⟩ := mem_pad4 r c hc
  exact (natDigitChar_props d hd).1

/-- The zero-aware rendering starts with a digit character. -/
theorem natCharsZ_head (m : ℕ) :
    ∃ d cs, d < 10 ∧ natCharsZ m = natDigitChar d :: cs := by
  unfold natCharsZ
  by_cases hm : m = 0
  · exact ⟨0, [], by norm_num, by rw [if_pos hm]; decide⟩
  · rw [if_neg hm]
    unfold natChars
    rcases hrev : (Nat.digits 10 m).reverse with _ | ⟨d, ds⟩
    · exact absurd (List.reverse_eq_nil_iff.1 hrev)
        (Nat.digits_ne_nil_iff_ne_zero.2 hm)
    · refine ⟨d, ds.map natDigitChar, ?_, by rfl⟩
      exact Nat.digits_lt_base (by norm_num)
        (List.mem_reverse.1 (hrev ▸ List.mem_cons_self d ds))

/-- Every character of `fmt4 q` is a minus sign, a dot, or a digit character. -/
theorem fmt4_chars (q : ℚ) (c : Char) (hc : c ∈ fmt4 q) :
    c = '-' ∨ c = '.' ∨ ∃ d, d < 10 ∧ c = natDigitChar d := by
  unfold fmt4 at hc
  rw [List.mem_append, List.mem_append, List.mem_cons] at hc
  rcases hc with (hs | hi) | (rfl | hf)
  · left
    by_cases hneg : round (q * 10000) < 0
    · rw [if_pos hneg] at hs
      simpa using hs
    · rw [if_neg hneg] at hs
      simp at hs
  · exact Or.inr (Or.inr (mem_natCharsZ _ c hi))
  · exact Or.inr (Or.inl rfl)
  · exact Or.inr (Or.inr (mem_pad4 _ c hf))

/-- No character of `fmt4 q` is whitespace. -/
theorem fmt4_no_space (q : ℚ) (c : Char) (hc : c ∈ fmt4 q) : pyIsSpace c = false := by
  rcases fmt4_chars q c hc with rfl | rfl | ⟨d, hd, rfl⟩
  · decide
  · decide
  · exact (natDigitChar_props d hd).2.2.1

/-- No character of `fmt4 q` is a comma. -/
theorem fmt4_no_comma (q : ℚ) (c : Char) (hc : c ∈ fmt4 q) : c ≠ ',' := by
  rcases fmt4_chars q c hc with rfl | rfl | ⟨d, hd, rfl⟩
  · decide
  · decide
  · exact (natDigitChar_props d hd).2.2.2.1

/-- The rendering `fmt4 q` is never the empty list. -/
theorem fmt4_ne_nil (q : ℚ) : fmt4 q ≠ [] := by
  unfold fmt4
  intro h
  rcases List.append_eq_nil.1 h with ⟨-, h2⟩
  exact List.cons_ne_nil _ _ h2

/-- Dropping with a predicate that fails on every element is the identity. -/
theorem dropWhile_all_false (p : Char → Bool) (l : List Char)
    (h : ∀ c ∈ l, p c = false) : l.dropWhile p = l := by
  cases l with
  | nil => rfl
  | cons c cs =>
    rw [List.dropWhile_cons, h c (List.mem_cons_self c cs)]
    simp

/-- Stripping a string with no whitespace anywhere is the identity. -/
theorem pyStrip_no_space (l : List Char) (h : ∀ c ∈ l, pyIsSpace c = false) :
    pyStrip l = l := by
  unfold pyStrip
  rw [dropWhile_all_false _ _ h,
    dropWhile_all_false _ _ (fun c hc => h c (List.mem_reverse.1 hc)),
    List.reverse_reverse]

/-- Stripping a whitespace-free non-empty string with a trailing newline drops
exactly the newline. -/
theorem pyStrip_append_newline (l : List Char) (hne : l ≠ [])
    (h : ∀ c ∈ l, pyIsSpace c = false) : pyStrip (l ++ ['\n']) = l := by
  obtain ⟨c, cs, rfl⟩ : ∃ c cs, l = c :: cs := by
    cases l with
    | nil => exact absurd rfl hne
    | cons c cs => exact ⟨c, cs, rfl⟩
  unfold pyStrip
  rw [List.cons_append, List.dropWhile_cons, h c (List.mem_cons_self c cs)]
  simp only [Bool.false_eq_true, if_false]
  have hrev : (c :: (cs ++ ['\n'])).reverse = '\n' :: (c :: cs).reverse := by
    simp
  rw [hrev, List.dropWhile_cons]
  simp only [show pyIsSpace '\n' = true from rfl, if_true]
  rw [dropWhile_all_false _ _ (fun x hx => h x (List.mem_reverse.1 hx)),
    List.reverse_reverse]

/-- Splitting a list containing no separator yields the single piece. -/
theorem splitOnChar_no_sep (sep : Char) (a : List Char) (h : ∀ c ∈ a, c ≠ sep) :
    splitOnChar sep a = [a] := by
  induction a with
  | nil => rfl
  | cons c cs ih =>
    have hc : ¬ c = sep := h c (List.mem_cons_self c cs)
    rw [splitOnChar, if_neg hc, ih (fun x hx => h x (List.mem_cons_of_mem c hx))]

/-- Splitting at the unique separator after a separator-free front piece
detaches exactly that piece. -/
theorem splitOnChar_append (sep : Char) (a b : List Char) (h : ∀ c ∈ a, c ≠ sep) :
    splitOnChar sep (a ++ sep :: b) = a :: splitOnChar sep b := by
  induction a with
  | nil =>
    rw [List.nil_append, splitOnChar, if_pos rfl]
  | cons c cs ih =>
    have hc : ¬ c = sep := h c (List.mem_cons_self c cs)
    rw [List.cons_append, splitOnChar, if_neg hc,
      ih (fun x hx => h x (List.mem_cons_of_mem c hx))]

/-- Taking up to the first dot of a dot-free front piece keeps the piece. -/
theorem takeWhile_to_dot (a b : List Char) (h : ∀ c ∈ a, c ≠ '.') :
    List.takeWhile (fun c => c ≠ '.') (a ++ '.' :: b) = a := by
  induction a with
  | nil =>
    rw [List.nil_append, List.takeWhile_cons]
    simp
  | cons c cs ih =>
    rw [List.cons_append, List.takeWhile_cons,
      decide_eq_true (h c (List.mem_cons_self c cs)),
      ih (fun x hx => h x (List.mem_cons_of_mem c hx))]
    simp

/-- Dropping up to the first dot of a dot-free front piece leaves the dot and
the tail. -/
theorem dropWhile_to_dot (a b : List Char) (h : ∀ c ∈ a, c ≠ '.') :
    List.dropWhile (fun c => c ≠ '.') (a ++ '.' :: b) = '.' :: b := by
  induction a with
  | nil =>
    rw [List.nil_append, List.dropWhile_cons]
    simp
  | cons c cs ih =>
    rw [List.cons_append, List.dropWhile_cons,
      decide_eq_true (h c (List.mem_cons_self c cs))]
    exact ih (fun x hx => h x (List.mem_cons_of_mem c hx))

/-- The magnitude parser reads back the rendered decimal
`natCharsZ I ++ "." ++ pad4 R` as `I + R/10000`. -/
theorem pyFloatMag_render (I R : ℕ) (hR : R < 10000) :
    pyFloatMag (natCharsZ I ++ '.' :: pad4 R) = some ((I : ℚ) + (R : ℚ) / 10000) := by
  have hdot : ∀ c ∈ natCharsZ I, c ≠ '.' := fun c hc => by
    obtain ⟨d, hd, rfl⟩ := mem_natCharsZ I c hc
    exact (natDigitChar_props d hd).2.2.2.2.1
  have hie : (natCharsZ I).isEmpty = false := by
    obtain ⟨d, cs, -, hshape⟩ := natCharsZ_head I
    rw [hshape]
    rfl
  simp only [pyFloatMag]
  rw [takeWhile_to_dot _ _ hdot, dropWhile_to_dot _ _ hdot]
  simp only [List.isEmpty_cons, List.tail_cons, hie, allDigits_natCharsZ, allDigits_pad4,
    Bool.not_false, Bool.true_or, Bool.and_true, Bool.true_and, if_true,
    Bool.false_eq_true, if_false]
  rw [digitsVal_natCharsZ, digitsVal_pad4 R hR]
  norm_num [pad4]

/-- The sign-aware parser reads back `fmt4 q` as the rounded value
`round4 q`. -/
theorem pyFloatChars_fmt4 (q : ℚ) : pyFloatChars (fmt4 q) = some (round4 q) := by
  set n : ℤ := round (q * 10000) with hn
  have hR : n.natAbs % 10000 < 10000 := Nat.mod_lt _ (by norm_num)
  have key : ((n.natAbs / 10000 : ℕ) : ℚ) + ((n.natAbs % 10000 : ℕ) : ℚ) / 10000 =
      ((n.natAbs : ℕ) : ℚ) / 10000 := by
    field_simp
    norm_cast
    omega
  by_cases hneg : n < 0
  · have hfmt : fmt4 q = '-' :: (natCharsZ (n.natAbs / 10000) ++ '.' :: pad4 (n.natAbs % 10000)) := by
      unfold fmt4
      rw [← hn, if_pos hneg]
      simp
    rw [hfmt]
    unfold pyFloatChars
    simp only [List.head?_cons, List.tail_cons]
    rw [if_neg (by decide), if_pos trivial, pyFloatMag_render _ _ hR]
    simp only [Option.map_some']
    congr 1
    rw [key]
    have hA : ((n.natAbs : ℕ) : ℚ) = -((n : ℤ) : ℚ) := by
      rw [Int.cast_natAbs, abs_of_neg hneg]
      push_cast
      ring
    rw [hA]
    unfold round4
    rw [← hn]
    ring
  · obtain ⟨d, cs, hd, hshape⟩ := natCharsZ_head (n.natAbs / 10000)
    have hfmt : fmt4 q = natCharsZ (n.natAbs / 10000) ++ '.' :: pad4 (n.natAbs % 10000) := by
      unfold fmt4
      rw [← hn, if_neg hneg]
      simp
    rw [hfmt]
    unfold pyFloatChars
    rw [hshape, List.cons_append]
    simp only [List.head?_cons, List.tail_cons]
    rw [if_neg (fun hh => (natDigitChar_props d hd).2.2.2.2.2.1 (Option.some.inj hh)),
      if_neg (fun hh => (natDigitChar_props d hd).2.2.2.2.2.2 (Option.some.inj hh)),
      ← List.cons_append, ← hshape, pyFloatMag_render _ _ hR]
    congr 1
    rw [key]
    have hA : ((n.natAbs : ℕ) : ℚ) = ((n : ℤ) : ℚ) := by
      rw [Int.cast_natAbs, abs_of_nonneg (not_lt.1 hneg)]
    rw [hA]
    unfold round4
    rw [← hn]

/-- Parsing the rendered value back, as Python `float` would, recovers the
rounded value exactly. -/
theorem pyFloat_fmt4 (q : ℚ) : pyFloat (fmt4 q) = some (round4 q) := by
  unfold pyFloat
  rw [pyStrip_no_space _ (fmt4_no_space q), pyFloatChars_fmt4]

/-- Parsing the rendered value with the trailing newline of the serial message
also recovers the rounded value (the strip removes the newline). -/
theorem pyFloat_fmt4_newline (q : ℚ) :
    pyFloat (fmt4 q ++ ['\n']) = some (round4 q) := by
  unfold pyFloat
  rw [pyStrip_append_newline _ (fmt4_ne_nil q) (fmt4_no_space q), pyFloatChars_fmt4]

/-- Rounding to four decimal places moves the value by at most half of the
last printed digit. -/
theorem round4_close (q : ℚ) : |round4 q - q| ≤ 1 / 20000 := by
  have h3 := abs_sub_round (q * 10000)
  rw [abs_le] at h3 ⊢
  unfold round4
  constructor <;> linarith [h3.1, h3.2]

/-- C9: the serial message for a coordinate pair is the single
newline-terminated comma-separated line `"<ra>,<dec>\n"` with fixed 4-decimal
precision; re-splitting that message on the comma yields the two rendered
fields, and parsing each field back recovers the formatted value exactly —
which is within half of the fourth decimal place (`1/20000`) of the original
value, i.e. the round trip preserves both values to the stated precision. -/
theorem serial_message_roundtrip (ra_deg dec_deg : ℚ) :
    (serial_message ra_deg dec_deg).data =
      fmt4 ra_deg ++ ',' :: (fmt4 dec_deg ++ ['\n']) ∧
    splitOnChar ',' (serial_message ra_deg dec_deg).data =
      [fmt4 ra_deg, fmt4 dec_deg ++ ['\n']] ∧
    pyFloat (fmt4 ra_deg) = some (round4 ra_deg) ∧
    pyFloat (fmt4 dec_deg ++ ['\n']) = some (round4 dec_deg) ∧
    |round4 ra_deg - ra_deg| ≤ 1 / 20000 ∧
    |round4 dec_deg - dec_deg| ≤ 1 / 20000 := by
  refine ⟨rfl, ?_, pyFloat_fmt4 ra_deg, pyFloat_fmt4_newline dec_deg,
    round4_close ra_deg, round4_close dec_deg⟩
  have hdata : (serial_message ra_deg dec_deg).data =
      fmt4 ra_deg ++ ',' :: (fmt4 dec_deg ++ ['\n']) := rfl
  rw [hdata, splitOnChar_append ',' _ _ (fmt4_no_comma ra_deg),
    splitOnChar_no_sep ',' _ ?_]
  intro c hc
  rcases List.mem_append.1 hc with h1 | h1
  · exact fmt4_no_comma dec_deg c h1
  · rw [List.mem_singleton] at h1
    rw [h1]
    decide
